import Mathlib

/-!
Verification of the nitro deterministic block-validation engine
(`validator/block_validator.go`) against its natural-language specification.

The Go code is shallowly embedded: pure computations become Lean functions,
stateful code becomes explicit state passing, and the external effects of a
routine (machine FFI calls, file writes, channel signals, process abort) are
recorded as an explicit list of actions together with the routine's result.
Machine integers (`uint64`) are modelled as `Nat`: the source only ever
increments small counters, compares them, and iterates ranges, so no overflow
is reachable in the properties considered here.  32-byte hashes are abstract
content identifiers modelled as `Nat`.

Code of the repository that is not part of `block_validator.go` (the preimage
cache in `preimage_cache.go`, the machine FFI in `machine.go`) is modelled
from the specification; each such definition carries a doc comment starting
with `Modelled from the spec:`.
-/

namespace NitroVal

/-- Raw byte buffers (sequencer batches, delayed messages, preimage bytes). -/
abbrev Bytes := List Nat

/-- Source `PosInSequencer` (block_validator.go lines 80-86): where a block
starts and is expected to end inside the sequencer message stream. -/
structure PosInSequencer where
  Pos        : Nat
  BatchNum   : Nat
  PosInBatch : Nat
  BatchAfter : Nat
  PosAfter   : Nat
deriving DecidableEq, Repr

/-- Modelled from the spec: `GlobalState` is the triple
`{batchNum, posInBatch, blockHash}` (§3), round-trippable through the machine.
The FFI helpers `CreateGlobalState` / `ParseGlobalState` live in `machine.go`,
which is not under `src/`; per §3 they are the constructor and the projections
of this triple. -/
structure GlobalState where
  batchNum   : Nat
  posInBatch : Nat
  blockHash  : Nat
deriving DecidableEq, Repr

/-- Modelled from the spec: `CreateGlobalState` packs the triple (§3). -/
def CreateGlobalState (batchNum posInBatch : Nat) (blockHash : Nat) : GlobalState :=
  { batchNum := batchNum, posInBatch := posInBatch, blockHash := blockHash }

/-- Modelled from the spec: `ParseGlobalState` unpacks the triple (§3). -/
def ParseGlobalState (gs : GlobalState) : Nat × Nat × Nat :=
  (gs.batchNum, gs.posInBatch, gs.blockHash)

/-- Block header, restricted to the fields the validator reads:
`header.Number`, `header.Nonce`, `header.ParentHash`, and the derived
`header.Hash()` (an abstract content hash, stored as `headerHash`). -/
structure Header where
  number     : Nat
  nonce      : Nat
  parentHash : Nat
  headerHash : Nat
deriving DecidableEq, Repr

/-- Source `validationEntry` (block_validator.go lines 112-125).  Preimage
handles are the hashes returned by the cache; `MsgsAllocated` holds the
delayed-message buffers owned by this validation (buffer identifiers). -/
structure validationEntry where
  BlockNumber   : Nat
  PrevBlockHash : Nat
  BlockHash     : Nat
  BlockHeader   : Header
  Preimages     : List Nat
  HasDelayedMsg : Bool
  DelayedMsgNr  : Nat
  SeqMsgNr      : Nat
  Pos           : Nat
  Running       : Bool
  MsgsAllocated : List Nat
  Valid         : Bool
deriving DecidableEq, Repr

/-- Source `newValidationEntry` (block_validator.go lines 127-138). -/
def newValidationEntry (header : Header) (hasDelayed : Bool) (delayedMsgNr : Nat)
    (preimages : List Nat) (pos : Nat) : validationEntry :=
  { BlockNumber   := header.number
    BlockHash     := header.headerHash
    PrevBlockHash := header.parentHash
    BlockHeader   := header
    Preimages     := preimages
    HasDelayedMsg := hasDelayed
    DelayedMsgNr  := delayedMsgNr
    SeqMsgNr      := 0
    Pos           := pos
    Running       := false
    MsgsAllocated := []
    Valid         := false }

/-- Source `validate`, lines 377-386: the scan over `config.BlocksToRecord`
that breaks as soon as an element larger than the block number is seen and
reports a hit on an exact match. -/
def recordScan (blocksToRecord : List Nat) (blockNumber : Nat) : Bool :=
  match blocksToRecord with
  | [] => false
  | blockNr :: rest =>
    if blockNr > blockNumber then false
    else if blockNr == blockNumber then true
    else recordScan rest blockNumber

/-- Source `validate`, lines 370-386: the artifact decision.  `writeThisBlock`
starts false, is set on `!resultValid`, and is set by the `BlocksToRecord`
scan. -/
def writeThisBlockGo (resultValid : Bool) (blocksToRecord : List Nat)
    (blockNumber : Nat) : Bool :=
  !resultValid || recordScan blocksToRecord blockNumber

/-- Association-list erase by key, modelling `sync.Map.Delete` /
`sync.Map.LoadAndDelete` on a map whose keys are unique. -/
def eraseKey {α : Type} (k : Nat) (l : List (Nat × α)) : List (Nat × α) :=
  l.eraseP (fun p => p.1 == k)

/-- Source `ProgressValidated`, lines 489-501: the batch-eviction loop
`for batch := v.batchNrValidated; batch < validationEntry.SeqMsgNr; batch++`
which `LoadAndDelete`s each batch number in `[lo, hi)` (a missing batch is
logged and skipped, i.e. the erase is a no-op). -/
def evictBatches (lo hi : Nat) (batches : List (Nat × Bytes)) : List (Nat × Bytes) :=
  (List.range' lo (hi - lo)).foldl (fun bs b => eraseKey b bs) batches

/-- The state touched by the Progress Tracker: the validation-entry table and
sequencer-batch registry (`validatorStatic`), and the `posNext`,
`batchNrValidated`, `blocksValidated` counters guarded by `posValidatedMutex`.
At validator construction all three counters are zero. -/
structure ProgressState where
  entries          : List (Nat × validationEntry)
  batches          : List (Nat × Bytes)
  posNext          : Nat
  batchNrValidated : Nat
  blocksValidated  : Nat
deriving DecidableEq, Repr

/-- Source `ProgressValidated` (block_validator.go lines 468-509), one loop
iteration: load the entry at `posNext` (stop when absent, not valid, or its
block number is not `blocksValidated + 1`), delete it, evict the batches in
`[batchNrValidated, entry.SeqMsgNr)`, and advance `posNext` and
`blocksValidated`.  Note the source never assigns `batchNrValidated`. -/
def progressStep (st : ProgressState) : Option ProgressState :=
  match List.lookup st.posNext st.entries with
  | none => none
  | some e =>
    if e.Valid = false then none
    else if e.BlockNumber ≠ st.blocksValidated + 1 then none
    else
      some { st with
        entries := eraseKey st.posNext st.entries
        batches := evictBatches st.batchNrValidated e.SeqMsgNr st.batches
        posNext := e.Pos + 1
        blocksValidated := e.BlockNumber }

/-- The `for { ... }` loop of `ProgressValidated`, with a fuel bound on the
number of iterations (each iteration deletes one table entry, so the loop
terminates; any fuel at least the table size is enough).  The second component
is the successive values assigned to `blocksValidated`, exactly the values
published on `progressChan`. -/
def progressRun : Nat → ProgressState → ProgressState × List Nat
  | 0, st => (st, [])
  | fuel + 1, st =>
    match progressStep st with
    | none => (st, [])
    | some st' =>
      let r := progressRun fuel st'
      (r.1, st'.blocksValidated :: r.2)

/-- Outcome of one `NewBlockValidator` call: either the panic raised when a
validator already exists, or a constructed validator (recording the global
`initialized` flag after the call and the resolved concurrency limit). -/
inductive NewBVResult where
  | panicked (msg : String)
  | created (flagAfter : Bool) (concurrentLimit : Nat)
deriving DecidableEq, Repr

/-- Source `NewBlockValidator` (block_validator.go lines 163-198), restricted
to the state visible to this development: it checks the process-wide
`validatorStatic.initialized` flag, panics if it is already set, and otherwise
sets it and resolves the concurrency limit (`0` means `runtime.NumCPU()`).
The returned `Bool` is the global flag after the call. -/
def newBlockValidatorModel (initialized : Bool) (configConcurrent numCPU : Nat) :
    NewBVResult × Bool :=
  if initialized then
    (.panicked "creating block validator when one exists", initialized)
  else
    (.created true (if configConcurrent = 0 then numCPU else configConcurrent), true)

/-- A sequence of `n` calls to `NewBlockValidator`, threading the global
`initialized` flag from call to call. -/
def newBVCalls (configConcurrent numCPU : Nat) : Nat → Bool → List NewBVResult
  | 0, _ => []
  | n + 1, flag =>
    let r := newBlockValidatorModel flag configConcurrent numCPU
    r.1 :: newBVCalls configConcurrent numCPU n r.2

/-- Modelled from the spec: the Preimage Cache's refcounted store (§4.1;
`preimage_cache.go` is not under `src/`).  A cache maps a preimage hash to its
bytes and reference count. -/
structure PreimageCache where
  store : List (Nat × (Bytes × Nat))
deriving DecidableEq, Repr

/-- Replace the binding of key `k` in an association list (key present). -/
def replaceKey {α : Type} (k : Nat) (v : α) (l : List (Nat × α)) : List (Nat × α) :=
  l.map (fun p => if p.1 == k then (k, v) else p)

/-- Modelled from the spec: `preimageCache.PourToCache` (§4.1 `ingest`):
inserts missing entries, increments the refcount of every supplied key, and
returns the supplied hashes as an ordered list.  The Go map iteration order is
abstracted by taking the preimages as an already-ordered list of pairs. -/
def PourToCache (preimages : List (Nat × Bytes)) (cache : PreimageCache) :
    List Nat × PreimageCache :=
  match preimages with
  | [] => ([], cache)
  | (h, b) :: rest =>
    let cache' : PreimageCache :=
      match List.lookup h cache.store with
      | some (bs, rc) => ⟨replaceKey h (bs, rc + 1) cache.store⟩
      | none => ⟨(h, (b, 1)) :: cache.store⟩
    let r := PourToCache rest cache'
    (h :: r.1, r.2)

/-- The state touched by `prepareBlock`: the preimage cache and the
validation-entry table. -/
structure PrepareState where
  cache   : PreimageCache
  entries : List (Nat × validationEntry)
deriving DecidableEq, Repr

/-- Source `prepareBlock` (block_validator.go lines 200-214): pour the
preimages into the cache, then verify `header.ParentHash == prevHeader.Hash()`
(log and drop on mismatch), detect a delayed message by a nonce change, store
a new entry at `pos`, and signal the dispatcher.  The returned `Bool` is true
when the submission was dropped.  Note the source pours the preimages before
the parent-hash check. -/
def prepareBlockModel (header prevHeader : Header)
    (preimages : List (Nat × Bytes)) (pos : Nat) (st : PrepareState) :
    PrepareState × Bool :=
  let poured := PourToCache preimages st.cache
  let hashlist := poured.1
  if header.parentHash ≠ prevHeader.headerHash then
    ({ st with cache := poured.2 }, true)
  else
    let hasDelayedMessage := header.nonce ≠ prevHeader.nonce
    let delayedMsgToRead := if header.nonce ≠ prevHeader.nonce then prevHeader.nonce else 0
    ({ cache := poured.2
       entries := (pos, newValidationEntry header hasDelayedMessage delayedMsgToRead hashlist pos)
         :: st.entries }, false)

/-- Error returned by a machine `Step` call.  The source distinguishes
`context.Canceled` and `context.DeadlineExceeded` (clean early return) from
any other error (fatal panic); other errors are tagged by an abstract code. -/
inductive StepErr where
  | canceled
  | deadlineExceeded
  | other (code : Nat)
deriving DecidableEq, Repr

/-- Outcome of the machine step loop: the machine halted with a final global
state, the loop returned early on cancellation/deadline, or a step failed
with an unexpected error. -/
inductive RunOutcome where
  | halted (gs : GlobalState)
  | interrupted (e : StepErr)
  | failed (e : StepErr)
deriving DecidableEq, Repr

/-- Source `validate` lines 352-365: the `for mach.IsRunning()` loop stepping
the machine in chunks of 10^8 instructions.  The opaque machine is abstracted
by the sequence of its `Step` results (`none` is a successful chunk) and its
final global state: the loop halts when the results are exhausted
(`IsRunning()` turned false), returns on a cancellation or deadline error,
and panics on any other step error. -/
def runLoop : List (Option StepErr) → GlobalState → RunOutcome
  | [], gs => .halted gs
  | some StepErr.canceled :: _, _ => .interrupted .canceled
  | some StepErr.deadlineExceeded :: _, _ => .interrupted .deadlineExceeded
  | some (StepErr.other c) :: _, _ => .failed (.other c)
  | none :: rest, gs => runLoop rest gs

/-- Source `validate` lines 368-372: parse `(resBatch, resPosInBatch, resHash)`
from the end global state and compare against the end record and the entry's
block hash. -/
def computeResultValid (gsEnd : GlobalState) (endRec : PosInSequencer)
    (entry : validationEntry) : Bool :=
  let parsed := ParseGlobalState gsEnd
  (parsed.1 == endRec.BatchAfter) && (parsed.2.1 == endRec.PosAfter) &&
    (parsed.2.2 == entry.BlockHash)

/-- Definition following the spec's words (§4.5 step 9), for comparison with
the source-derived `computeResultValid`: `resultValid = (resBatch ==
endRec.batchAfter) && (resPos == endRec.posAfter) && (resHash ==
entry.blockHash)`. -/
def resultValidSpec (gsEnd : GlobalState) (endRec : PosInSequencer)
    (entry : validationEntry) : Bool :=
  decide ((ParseGlobalState gsEnd).1 = endRec.BatchAfter ∧
    (ParseGlobalState gsEnd).2.1 = endRec.PosAfter ∧
    (ParseGlobalState gsEnd).2.2 = entry.BlockHash)

/-- Externally visible actions of a `validate` task, in program order:
machine FFI calls, artifact emission, resource releases, counter updates and
channel signals.  `freePacked` is the deferred `C.free` of the packed
preimage descriptor array (line 317), which Go runs on every exit path,
including `runtime.Goexit` and panics. -/
inductive VAction where
  | freePacked
  | cloneMachine
  | addPreimages
  | setGlobalState
  | addSeqMsg
  | fetchDelayed
  | addDelayedMsg
  | writeArtifact
  | logWriteFail
  | logMismatch
  | removeFromCache
  | destroyBuffers
  | decRunning
  | setValid
  | signalProgress
  | signalSend
deriving DecidableEq, Repr

/-- How a `validate` task ends: an early logged return, a `runtime.Goexit`, a
process-aborting panic, or the success path. -/
inductive VResult where
  | notInitialized
  | badArgs
  | prepFailed
  | goexit
  | earlyReturn
  | panicked (msg : String)
  | success
deriving DecidableEq, Repr

/-- The environment a `validate` task runs against: the global `initialized`
flag, whether `PrepareMultByteArrays` succeeds, the sequencer-batch lookup
result, the delayed-message fetch result, the machine behaviour, and whether
`writeToFile` fails. -/
structure ValidateEnv where
  initialized : Bool
  prepOk : Bool
  seqBatch : Option Bytes
  delayedMsg : Option Bytes
  stepResults : List (Option StepErr)
  endGS : GlobalState
  writeErr : Bool
deriving DecidableEq, Repr

/-- Observable outcome of a `validate` task: its result, the ordered action
trace, the computed verdict and artifact decision (when reached), the entry's
final `Valid` flag, and the net change this task applied to
`atomicValidationsRunning`. -/
structure VOut where
  result : VResult
  actions : List VAction
  resultValid : Option Bool
  writeThisBlock : Option Bool
  entryValid : Bool
  runningDelta : Int
deriving DecidableEq, Repr

/-- The machine-setup actions of `validate` lines 337-340: clone the base
machine, add preimages, set the start global state, add the sequencer batch. -/
def validateSetup : List VAction :=
  [VAction.cloneMachine, VAction.addPreimages, VAction.setGlobalState, VAction.addSeqMsg]

/-- Setup actions including the delayed-message handling of lines 342-350. -/
def validatePre (hasDelayed : Bool) : List VAction :=
  validateSetup ++ (if hasDelayed then [VAction.fetchDelayed, VAction.addDelayedMsg] else [])

/-- Source `validate` lines 352-415, from the step loop on: run the machine,
and on halt compute the verdict (line 372) and the artifact decision (lines
370-386), write the artifact if requested (lines 388-393, an I/O error is
only logged), abort the process on a mismatch (lines 395-399), and otherwise
release resources, decrement the running counter, mark the entry valid and
signal both loops (lines 401-414). -/
def validateTail (env : ValidateEnv) (entry : validationEntry)
    (endRec : PosInSequencer) (blocksToRecord : List Nat)
    (pre : List VAction) : VOut :=
  match runLoop env.stepResults env.endGS with
  | .interrupted _ =>
    { result := .earlyReturn, actions := pre ++ [VAction.freePacked],
      resultValid := none, writeThisBlock := none,
      entryValid := entry.Valid, runningDelta := 0 }
  | .failed _ =>
    { result := .panicked "Failed to run machine",
      actions := pre ++ [VAction.freePacked],
      resultValid := none, writeThisBlock := none,
      entryValid := entry.Valid, runningDelta := 0 }
  | .halted gs =>
    let rv := computeResultValid gs endRec entry
    let wtb := writeThisBlockGo rv blocksToRecord entry.BlockNumber
    let wActs := if wtb then
        VAction.writeArtifact :: (if env.writeErr then [VAction.logWriteFail] else [])
      else []
    if rv = false then
      { result := .panicked "validation failed. quitting..",
        actions := pre ++ wActs ++ [VAction.logMismatch, VAction.freePacked],
        resultValid := some rv, writeThisBlock := some wtb,
        entryValid := entry.Valid, runningDelta := 0 }
    else
      { result := .success,
        actions := pre ++ wActs ++ [VAction.removeFromCache, VAction.destroyBuffers,
          VAction.decRunning, VAction.setValid, VAction.signalProgress,
          VAction.signalSend, VAction.freePacked],
        resultValid := some rv, writeThisBlock := some wtb,
        entryValid := true, runningDelta := -1 }

/-- Source `validate` (block_validator.go lines 306-415).  The early exits, in
source order: `validatorStatic` not initialized (lines 308-311), argument
positions disagreeing (lines 312-315), `PrepareMultByteArrays` failing (lines
316-321), the sequencer batch missing (`runtime.Goexit`, lines 326-335), and
the delayed-message fetch failing (`runtime.Goexit`, lines 342-350); then
`validateTail` runs the machine. -/
def validateModel (env : ValidateEnv) (entry : validationEntry)
    (start endRec : PosInSequencer) (blocksToRecord : List Nat) : VOut :=
  if env.initialized = false then
    { result := .notInitialized, actions := [], resultValid := none,
      writeThisBlock := none, entryValid := entry.Valid, runningDelta := 0 }
  else if entry.Pos ≠ endRec.Pos then
    { result := .badArgs, actions := [], resultValid := none,
      writeThisBlock := none, entryValid := entry.Valid, runningDelta := 0 }
  else if env.prepOk = false then
    { result := .prepFailed, actions := [VAction.freePacked], resultValid := none,
      writeThisBlock := none, entryValid := entry.Valid, runningDelta := 0 }
  else
    match env.seqBatch with
    | none =>
      { result := .goexit, actions := [VAction.freePacked], resultValid := none,
        writeThisBlock := none, entryValid := entry.Valid, runningDelta := 0 }
    | some _ =>
      if entry.HasDelayedMsg then
        match env.delayedMsg with
        | none =>
          { result := .goexit, actions := validateSetup ++ [VAction.freePacked],
            resultValid := none, writeThisBlock := none,
            entryValid := entry.Valid, runningDelta := 0 }
        | some _ =>
          validateTail env entry endRec blocksToRecord (validatePre true)
      else
        validateTail env entry endRec blocksToRecord (validatePre false)

/-- A single-message position record used as both start and end marker for the
concrete validate runs below. -/
def cwRec : PosInSequencer :=
  { Pos := 0, BatchNum := 0, PosInBatch := 0, BatchAfter := 1, PosAfter := 0 }

/-- A pending entry (block 1, claimed hash 9) at position 0. -/
def cwEntry : validationEntry :=
  { BlockNumber := 1, PrevBlockHash := 7, BlockHash := 9,
    BlockHeader := { number := 1, nonce := 0, parentHash := 7, headerHash := 9 },
    Preimages := [5], HasDelayedMsg := false, DelayedMsgNr := 0, SeqMsgNr := 0,
    Pos := 0, Running := false, MsgsAllocated := [], Valid := false }

/-- Environment for a completed machine run whose end state matches `cwEntry`
and `cwRec`. -/
def c1Env : ValidateEnv :=
  { initialized := true, prepOk := true, seqBatch := some [1], delayedMsg := none,
    stepResults := [none, none], endGS := { batchNum := 1, posInBatch := 0, blockHash := 9 },
    writeErr := false }

/-- Environment for a completed machine run whose end hash (8) disagrees with
`cwEntry`'s claimed block hash (9). -/
def c2Env : ValidateEnv :=
  { initialized := true, prepOk := true, seqBatch := some [1], delayedMsg := none,
    stepResults := [none, none], endGS := { batchNum := 1, posInBatch := 0, blockHash := 8 },
    writeErr := false }

/-- Environment for a run cancelled at its second step chunk. -/
def c8Env : ValidateEnv :=
  { initialized := true, prepOk := true, seqBatch := some [1], delayedMsg := none,
    stepResults := [none, some StepErr.canceled],
    endGS := { batchNum := 1, posInBatch := 0, blockHash := 9 }, writeErr := false }

/-- A concrete one-entry progress state used to witness C3. -/
def c3Entry : validationEntry :=
  { BlockNumber := 1, PrevBlockHash := 0, BlockHash := 7,
    BlockHeader := { number := 1, nonce := 0, parentHash := 0, headerHash := 7 },
    Preimages := [], HasDelayedMsg := false, DelayedMsgNr := 0, SeqMsgNr := 1,
    Pos := 0, Running := false, MsgsAllocated := [], Valid := true }

/-- Initial progress state holding `c3Entry` at position 0. -/
def c3St : ProgressState :=
  { entries := [(0, c3Entry)], batches := [(0, [1])], posNext := 0,
    batchNrValidated := 0, blocksValidated := 0 }

/-- The state after one progress step from `c3St`. -/
def c3StNext : ProgressState :=
  { entries := [], batches := [], posNext := 1,
    batchNrValidated := 0, blocksValidated := 1 }

/-- A valid entry whose `SeqMsgNr` is 2, so its progress step evicts batches 0
and 1. -/
def c6Entry : validationEntry :=
  { BlockNumber := 1, PrevBlockHash := 0, BlockHash := 7,
    BlockHeader := { number := 1, nonce := 0, parentHash := 0, headerHash := 7 },
    Preimages := [], HasDelayedMsg := false, DelayedMsgNr := 0, SeqMsgNr := 2,
    Pos := 0, Running := false, MsgsAllocated := [], Valid := true }

/-- Progress state holding `c6Entry` and the two batches it consumed. -/
def c6St : ProgressState :=
  { entries := [(0, c6Entry)], batches := [(0, [10]), (1, [11])], posNext := 0,
    batchNrValidated := 0, blocksValidated := 0 }

/-- The state after one progress step from `c6St`. -/
def c6StNext : ProgressState :=
  { entries := [], batches := [], posNext := 1,
    batchNrValidated := 0, blocksValidated := 1 }

/-- A submission whose parent hash (9) does not match the previous header's
hash (7), used against C5. -/
def c5Header : Header :=
  { number := 2, nonce := 0, parentHash := 9, headerHash := 12 }

/-- The previous header for the C5 submission. -/
def c5PrevHeader : Header :=
  { number := 1, nonce := 0, parentHash := 0, headerHash := 7 }

/-- C5's initial prepare state: empty cache, empty entry table. -/
def c5St : PrepareState := { cache := ⟨[]⟩, entries := [] }

/-- Source `StupidSearchPos` (block_validator.go lines 154-161): the index of
the first record whose `Pos` is at least `pos` (the list length when none
is). -/
def StupidSearchPos (l : List PosInSequencer) (pos : Nat) : Nat :=
  match l with
  | [] => 0
  | h :: t => if h.Pos < pos then StupidSearchPos t pos + 1 else 0

/-- Insertion step of the sort by `Pos`. -/
def insertByPos (r : PosInSequencer) : List PosInSequencer → List PosInSequencer
  | [] => [r]
  | h :: t => if r.Pos < h.Pos then r :: h :: t else h :: insertByPos r t

/-- Models `sort.Sort(v.posToValidate)` (line 420) with the `Less` of lines
150-152: sort the queue by ascending `Pos`. -/
def sortByPos : List PosInSequencer → List PosInSequencer
  | [] => []
  | h :: t => insertByPos h (sortByPos t)

/-- Source `sendValidations` lines 425-449, the dispatch loop: while the
running count is below the limit, the queue head's `Pos` equals `posNextSend`,
the entry at `posNextSend` is present, and the queue holds a record matching
`entry.Pos` (the end marker found by `StupidSearchPos`), dispatch
`(head, endMarker)`, bump the running count, advance
`posNextSend = entry.Pos + 1` and drop the queue through the end marker.
`fuel` bounds the iterations (each one drops at least the head, so any fuel
at least the queue length is enough).  Returns the dispatched
(start, end) pairs and the final `posNextSend` and running count. -/
def sendLoopF (entries : List (Nat × validationEntry)) (limit : Nat) :
    Nat → List PosInSequencer → Nat → Nat →
      List (PosInSequencer × PosInSequencer) × Nat × Nat
  | 0, _, pns, run => ([], pns, run)
  | fuel + 1, q, pns, run =>
    if run ≥ limit then ([], pns, run)
    else
      match q with
      | [] => ([], pns, run)
      | h :: t =>
        if h.Pos ≠ pns then ([], pns, run)
        else
          match List.lookup pns entries with
          | none => ([], pns, run)
          | some e =>
            match (h :: t).get? (StupidSearchPos (h :: t) e.Pos) with
            | none => ([], pns, run)
            | some endRec =>
              if endRec.Pos ≠ e.Pos then ([], pns, run)
              else
                let r := sendLoopF entries limit fuel
                  ((h :: t).drop (StupidSearchPos (h :: t) e.Pos + 1))
                  (e.Pos + 1) (run + 1)
                ((h, endRec) :: r.1, r.2.1, r.2.2)

/-- Source `sendValidations` (block_validator.go lines 417-450): under the
queue mutex, sort the queue, drop every record with `pos < posNextSend`, then
run the dispatch loop. -/
def sendValidationsModel (entries : List (Nat × validationEntry)) (limit : Nat)
    (posToValidate : List PosInSequencer) (posNextSend running : Nat) :
    List (PosInSequencer × PosInSequencer) × Nat × Nat :=
  sendLoopF entries limit
    (((sortByPos posToValidate).drop
      (StupidSearchPos (sortByPos posToValidate) posNextSend)).length + 1)
    ((sortByPos posToValidate).drop
      (StupidSearchPos (sortByPos posToValidate) posNextSend))
    posNextSend running

/-- The entry table for the concrete C7 dispatch run. -/
def c7Entries : List (Nat × validationEntry) := [(0, cwEntry)]

/-- Metadata of one file in the base-machine cache directory: its name and
modification time (hours, on an abstract clock). -/
structure FileInfo where
  name  : String
  mtime : Nat
deriving DecidableEq, Repr

/-- Result of the `os.Chtimes` touch of a cache hit (lines 574-584): success,
`os.ErrNotExist` (treated as a miss), or another error (fatal). -/
inductive ChtimesRes where
  | ok
  | errNotExist
  | errOther
deriving DecidableEq, Repr

/-- File-system and machine actions of `cacheBaseMachineUntilHostIo`. -/
inductive CAct where
  | mkdir
  | removeFile (name : String)
  | touch
  | deserialize
  | stepUntilHostIo
  | serializeTo (path : String)
  | renameFile (src dst : String)
deriving DecidableEq, Repr

/-- Which call of `cacheBaseMachineUntilHostIo` failed, when one did. -/
inductive CErr where
  | mkdir
  | readDir
  | removeFile
  | chtimes
  | stepUntilHostIo
  | serialize
  | rename
deriving DecidableEq, Repr

/-- Environment of a `cacheBaseMachineUntilHostIo` run: the cache directory
and machine hash (as path strings), the clock, the directory listing, and the
success or failure of each external call. -/
structure CacheEnv where
  cacheDir      : String
  hashStr       : String
  now           : Nat
  dirFiles      : List FileInfo
  mkdirErr      : Bool
  readDirErr    : Bool
  removeErr     : Bool
  chtimesRes    : ChtimesRes
  deserializeOk : Bool
  stepErr       : Bool
  serializeErr  : Bool
  renameErr     : Bool
deriving DecidableEq, Repr

/-- Source lines 556-570: the scan over the cache directory.  A file named
`<hash>.bin` marks a hit; any other file older than 24 hours is removed (an
`os.Remove` error aborts the whole function); newer unknown files are kept.
Returns the actions, the `foundInCache` flag, and whether a removal
errored. -/
def scanFiles (expected : String) (threshold : Nat) (removeErr : Bool) :
    List FileInfo → List CAct × Bool × Bool
  | [] => ([], false, false)
  | f :: rest =>
    if f.name = expected then
      ((scanFiles expected threshold removeErr rest).1, true,
        (scanFiles expected threshold removeErr rest).2.2)
    else if f.mtime < threshold then
      if removeErr then ([CAct.removeFile f.name], false, true)
      else
        (CAct.removeFile f.name :: (scanFiles expected threshold removeErr rest).1,
          (scanFiles expected threshold removeErr rest).2.1,
          (scanFiles expected threshold removeErr rest).2.2)
    else scanFiles expected threshold removeErr rest

/-- Source lines 600-617: the recomputation path.  `StepUntilHostIo` the base
machine, `SerializeState` to the sibling `<file>.wip`, and rename it over the
canonical `file`; the first error aborts with that error. -/
def recomputePath (env : CacheEnv) (file : String) (acts : List CAct) :
    List CAct × Option CErr :=
  if env.stepErr then (acts ++ [CAct.stepUntilHostIo], some CErr.stepUntilHostIo)
  else if env.serializeErr then
    (acts ++ [CAct.stepUntilHostIo, CAct.serializeTo (file ++ ".wip")],
      some CErr.serialize)
  else if env.renameErr then
    (acts ++ [CAct.stepUntilHostIo, CAct.serializeTo (file ++ ".wip"),
      CAct.renameFile (file ++ ".wip") file], some CErr.rename)
  else
    (acts ++ [CAct.stepUntilHostIo, CAct.serializeTo (file ++ ".wip"),
      CAct.renameFile (file ++ ".wip") file], none)

/-- Source `cacheBaseMachineUntilHostIo` (block_validator.go lines 544-618):
make the cache directory, read it, scan it (removing old unknown files), on a
hit touch the file (`ErrNotExist` demotes the hit to a miss, other errors are
fatal) and attempt `DeserializeAndReplaceState` (success ends the function;
failure only logs), and on a miss or failed deserialization run the
recomputation path. -/
def cacheModel (env : CacheEnv) : List CAct × Option CErr :=
  if env.mkdirErr then ([CAct.mkdir], some CErr.mkdir)
  else if env.readDirErr then ([CAct.mkdir], some CErr.readDir)
  else
    let expectedName := env.hashStr ++ ".bin"
    let scan := scanFiles expectedName (env.now - 24) env.removeErr env.dirFiles
    let acts0 := CAct.mkdir :: scan.1
    if scan.2.2 then (acts0, some CErr.removeFile)
    else
      let file := env.cacheDir ++ "/" ++ expectedName
      if scan.2.1 then
        match env.chtimesRes with
        | ChtimesRes.errOther => (acts0 ++ [CAct.touch], some CErr.chtimes)
        | ChtimesRes.errNotExist => recomputePath env file (acts0 ++ [CAct.touch])
        | ChtimesRes.ok =>
          if env.deserializeOk then (acts0 ++ [CAct.touch, CAct.deserialize], none)
          else recomputePath env file (acts0 ++ [CAct.touch, CAct.deserialize])
      else recomputePath env file acts0

/-- Source `Start` (block_validator.go lines 620-628): prepare the base
machine cache and propagate its error; on success the two loops are
launched. -/
def startModel (env : CacheEnv) : Option CErr :=
  (cacheModel env).2

/-- A concrete cache-miss environment (empty cache directory, no errors). -/
def c9Env : CacheEnv :=
  { cacheDir := "c", hashStr := "h", now := 30, dirFiles := [],
    mkdirErr := false, readDirErr := false, removeErr := false,
    chtimesRes := ChtimesRes.ok, deserializeOk := true, stepErr := false,
    serializeErr := false, renameErr := false }

/-! ### Theorems

Every remaining declaration is a theorem: helper lemmas first, then one
theorem per claim (with a witness where the claim theorem has hypotheses). -/

theorem progressStep_some (st st' : ProgressState)
    (h : progressStep st = some st') :
    ∃ e, List.lookup st.posNext st.entries = some e ∧ e.Valid = true ∧
      e.BlockNumber = st.blocksValidated + 1 ∧
      st'.blocksValidated = st.blocksValidated + 1 ∧
      st'.batchNrValidated = st.batchNrValidated := by
  cases hl : List.lookup st.posNext st.entries with
  | none => simp only [progressStep, hl] at h; cases h
  | some e =>
    simp only [progressStep, hl] at h
    by_cases hv : e.Valid = false
    · rw [if_pos hv] at h; cases h
    · rw [if_neg hv] at h
      by_cases hb : e.BlockNumber = st.blocksValidated + 1
      · rw [if_neg (not_not_intro hb)] at h
        injection h with h'
        subst h'
        exact ⟨e, rfl, eq_true_of_ne_false hv, hb, by simpa using hb, rfl⟩
      · rw [if_pos hb] at h; cases h

theorem computeResultValid_eq_spec (gs : GlobalState) (er : PosInSequencer)
    (e : validationEntry) :
    computeResultValid gs er e = resultValidSpec gs er e := by
  simp only [computeResultValid, resultValidSpec, ParseGlobalState]
  by_cases h1 : gs.batchNum = er.BatchAfter <;>
    by_cases h2 : gs.posInBatch = er.PosAfter <;>
      by_cases h3 : gs.blockHash = e.BlockHash <;>
        simp [h1, h2, h3]

theorem validateModel_reaches_run (env : ValidateEnv) (entry : validationEntry)
    (start endRec : PosInSequencer) (btr : List Nat)
    (h1 : env.initialized = true) (h2 : entry.Pos = endRec.Pos)
    (h3 : env.prepOk = true) (sb : Bytes) (h4 : env.seqBatch = some sb)
    (h5 : entry.HasDelayedMsg = false ∨ ∃ db, env.delayedMsg = some db) :
    validateModel env entry start endRec btr =
      validateTail env entry endRec btr (validatePre entry.HasDelayedMsg) := by
  cases hD : entry.HasDelayedMsg with
  | false => simp [validateModel, h1, h2, h3, h4, hD]
  | true =>
    rcases h5 with h5 | ⟨db, hdb⟩
    · rw [hD] at h5; cases h5
    · simp [validateModel, h1, h2, h3, h4, hD, hdb]

theorem validateTail_interrupted (env : ValidateEnv) (entry : validationEntry)
    (endRec : PosInSequencer) (btr : List Nat) (pre : List VAction) (er : StepErr)
    (h6 : runLoop env.stepResults env.endGS = RunOutcome.interrupted er) :
    validateTail env entry endRec btr pre =
      { result := .earlyReturn, actions := pre ++ [VAction.freePacked],
        resultValid := none, writeThisBlock := none,
        entryValid := entry.Valid, runningDelta := 0 } := by
  unfold validateTail
  rw [h6]

theorem validateTail_mismatch (env : ValidateEnv) (entry : validationEntry)
    (endRec : PosInSequencer) (btr : List Nat) (pre : List VAction)
    (h6 : runLoop env.stepResults env.endGS = RunOutcome.halted env.endGS)
    (h7 : computeResultValid env.endGS endRec entry = false) :
    validateTail env entry endRec btr pre =
      { result := .panicked "validation failed. quitting..",
        actions := pre ++ (VAction.writeArtifact ::
          (if env.writeErr then [VAction.logWriteFail] else [])) ++
          [VAction.logMismatch, VAction.freePacked],
        resultValid := some false, writeThisBlock := some true,
        entryValid := entry.Valid, runningDelta := 0 } := by
  unfold validateTail
  rw [h6]
  simp [h7, writeThisBlockGo]

theorem progressRun_stuck (fuel : Nat) (pst : ProgressState) (e' : validationEntry)
    (hl : List.lookup pst.posNext pst.entries = some e') (hv : e'.Valid = false) :
    progressRun fuel pst = (pst, []) := by
  have hstep : progressStep pst = none := by
    simp only [progressStep, hl]
    rw [if_pos hv]
  cases fuel with
  | zero => rfl
  | succ f => simp [progressRun, hstep]

theorem newBVCalls_true (cc ncpu : Nat) :
    ∀ n, newBVCalls cc ncpu n true =
      List.replicate n (NewBVResult.panicked "creating block validator when one exists") := by
  intro n
  induction n with
  | zero => rfl
  | succ k ih =>
    simp [newBVCalls, newBlockValidatorModel, List.replicate, ih]

/-- C10: in any sequence of `NewBlockValidator` calls starting from an
uninitialized process, the first call sets the global flag and returns a
validator, and every subsequent call panics with
"creating block validator when one exists". -/
theorem c10_singleton_validator (n configConcurrent numCPU : Nat) :
    newBVCalls configConcurrent numCPU (n + 1) false =
      NewBVResult.created true (if configConcurrent = 0 then numCPU else configConcurrent) ::
        List.replicate n (NewBVResult.panicked "creating block validator when one exists") := by
  simp [newBVCalls, newBlockValidatorModel, newBVCalls_true]

/-- C3: the published blocks-validated counter is monotone with no gaps.  A
progress step advances only when the entry at `posNext` exists, is valid, and
carries block number `blocksValidated + 1`, in which case `blocksValidated`
increases by exactly one; hence over any run the successive values of
`blocksValidated` are the consecutive integers from the starting value (0 at
construction) up to the final value. -/
theorem c3_progress_monotone_no_gaps :
    (∀ st st', progressStep st = some st' →
      ∃ e, List.lookup st.posNext st.entries = some e ∧ e.Valid = true ∧
        e.BlockNumber = st.blocksValidated + 1 ∧
        st'.blocksValidated = st.blocksValidated + 1) ∧
    (∀ fuel st, ∃ k,
      (progressRun fuel st).2 = List.range' (st.blocksValidated + 1) k ∧
      (progressRun fuel st).1.blocksValidated = st.blocksValidated + k) := by
  constructor
  · intro st st' h
    obtain ⟨e, h1, h2, h3, h4, _⟩ := progressStep_some st st' h
    exact ⟨e, h1, h2, h3, h4⟩
  · intro fuel
    induction fuel with
    | zero => intro st; exact ⟨0, rfl, rfl⟩
    | succ f ih =>
      intro st
      cases hs : progressStep st with
      | none => exact ⟨0, by simp [progressRun, hs], by simp [progressRun, hs]⟩
      | some st' =>
        obtain ⟨k, hk1, hk2⟩ := ih st'
        obtain ⟨e, _, _, _, hb, _⟩ := progressStep_some st st' hs
        refine ⟨k + 1, ?_, ?_⟩
        · simp only [progressRun, hs]
          rw [hk1, hb]
          simp [List.range']
        · simp only [progressRun, hs]
          rw [hk2, hb]
          omega

theorem c3_progress_monotone_no_gaps_witness :
    progressStep c3St = some c3StNext ∧
    (∃ e, List.lookup c3St.posNext c3St.entries = some e ∧ e.Valid = true ∧
      e.BlockNumber = c3St.blocksValidated + 1 ∧
      c3StNext.blocksValidated = c3St.blocksValidated + 1) ∧
    (∃ k, (progressRun 2 c3St).2 = List.range' (c3St.blocksValidated + 1) k ∧
      (progressRun 2 c3St).1.blocksValidated = c3St.blocksValidated + k) :=
  ⟨by decide, c3_progress_monotone_no_gaps.1 c3St c3StNext (by decide),
    c3_progress_monotone_no_gaps.2 2 c3St⟩

/-- C6 is violated by the code: `ProgressValidated` never assigns
`batchNrValidated` (no statement in the source updates it), so on this step
batch 1 is destroyed while `batchNrValidated` is still 0, i.e. before
`batchNrValidated` has advanced past it, and it remains 0 after the whole
run. -/
theorem c6_batch_eviction_without_advancing :
    progressStep c6St = some c6StNext ∧
    List.lookup 1 c6St.batches = some [11] ∧
    List.lookup 1 c6StNext.batches = none ∧
    c6StNext.batchNrValidated = 0 ∧
    ¬ 1 < c6StNext.batchNrValidated ∧
    (progressRun 2 c6St).1.batchNrValidated = 0 := by
  decide

/-- C4 fails as stated: with `BlocksToRecord = [10, 5]` (a member list that is
not sorted ascending) and a valid block 5, the code's scan breaks at 10 and
emits no artifact, although 5 occurs in the configured list. -/
theorem c4_counterexample :
    writeThisBlockGo true [10, 5] 5 = false ∧
    ([10, 5] : List Nat).contains 5 = true ∧
    writeThisBlockGo true [10, 5] 5 ≠ (!true || ([10, 5] : List Nat).contains 5) := by
  decide

theorem recordScan_true_iff (n : Nat) :
    ∀ l : List Nat, List.Pairwise (· ≤ ·) l → (recordScan l n = true ↔ n ∈ l) := by
  intro l
  induction l with
  | nil => intro _; simp [recordScan]
  | cons b rest ih =>
    intro hs
    rcases List.pairwise_cons.mp hs with ⟨hb, hrest⟩
    by_cases h1 : b > n
    · simp only [recordScan, if_pos h1, List.mem_cons]
      constructor
      · intro h; cases h
      · rintro (rfl | hmem)
        · omega
        · exact absurd (hb n hmem) (by omega)
    · by_cases h2 : b = n
      · simp [recordScan, h1, h2, List.mem_cons]
      · have hbeq : (b == n) = false := by simp [h2]
        simp only [recordScan, if_neg h1, hbeq, Bool.false_eq_true, if_false,
          List.mem_cons, ih hrest]
        constructor
        · intro h; exact Or.inr h
        · rintro (rfl | hmem)
          · exact absurd rfl h2
          · exact hmem

/-- C4 amended: the artifact decision equals
`!resultValid || blockNumber ∈ BlocksToRecord` for every configuration whose
`BlocksToRecord` list is sorted in ascending order; in general the scan only
finds occurrences that precede any strictly larger element. -/
theorem c4_amended_sorted_record_list (resultValid : Bool)
    (blocksToRecord : List Nat) (blockNumber : Nat)
    (hs : List.Pairwise (· ≤ ·) blocksToRecord) :
    writeThisBlockGo resultValid blocksToRecord blockNumber = true ↔
      resultValid = false ∨ blockNumber ∈ blocksToRecord := by
  simp [writeThisBlockGo, recordScan_true_iff blockNumber blocksToRecord hs]

theorem c4_amended_sorted_record_list_witness :
    List.Pairwise (· ≤ ·) [3, 5] ∧
    (writeThisBlockGo true [3, 5] 5 = true ↔ true = false ∨ 5 ∈ [3, 5]) :=
  ⟨by decide, c4_amended_sorted_record_list true [3, 5] 5 (by decide)⟩

/-- C5 fails as stated: on a parent-hash mismatch the submission is dropped
with no entry stored, but the Preimage Cache is not left unchanged — the
source calls `PourToCache` before the parent-hash check, so the supplied
preimage has been ingested (hash 5 now cached with refcount 1). -/
theorem c5_counterexample :
    (prepareBlockModel c5Header c5PrevHeader [(5, [1, 2])] 0 c5St).2 = true ∧
    (prepareBlockModel c5Header c5PrevHeader [(5, [1, 2])] 0 c5St).1.entries = [] ∧
    (prepareBlockModel c5Header c5PrevHeader [(5, [1, 2])] 0 c5St).1.cache ≠ c5St.cache := by
  decide

/-- C5 amended: on a parent-hash mismatch `prepareBlock` logs and drops the
submission — no `ValidationEntry` is stored at `pos` — but preimage ingestion
precedes the verification, so the Preimage Cache has already absorbed the
supplied preimages (the cache is exactly the poured cache, not the original
one). -/
theorem c5_amended_drop_after_pour (header prevHeader : Header)
    (preimages : List (Nat × Bytes)) (pos : Nat) (st : PrepareState)
    (h : header.parentHash ≠ prevHeader.headerHash) :
    (prepareBlockModel header prevHeader preimages pos st).2 = true ∧
    (prepareBlockModel header prevHeader preimages pos st).1.entries = st.entries ∧
    (prepareBlockModel header prevHeader preimages pos st).1.cache =
      (PourToCache preimages st.cache).2 := by
  simp [prepareBlockModel, h]

theorem c5_amended_drop_after_pour_witness :
    c5Header.parentHash ≠ c5PrevHeader.headerHash ∧
    ((prepareBlockModel c5Header c5PrevHeader [(5, [1, 2])] 0 c5St).2 = true ∧
     (prepareBlockModel c5Header c5PrevHeader [(5, [1, 2])] 0 c5St).1.entries = c5St.entries ∧
     (prepareBlockModel c5Header c5PrevHeader [(5, [1, 2])] 0 c5St).1.cache =
       (PourToCache [(5, [1, 2])] c5St.cache).2) :=
  ⟨by decide,
    c5_amended_drop_after_pour c5Header c5PrevHeader [(5, [1, 2])] 0 c5St (by decide)⟩

/-- C1: for every completed machine run in a validate task, the verdict the
task computes and acts on equals exactly `(resBatch == end.BatchAfter) &&
(resPosInBatch == end.PosAfter) && (resHash == entry.BlockHash)` with
`(resBatch, resPosInBatch, resHash)` parsed from the machine's end global
state, for every end record and every validation entry. -/
theorem c1_validity_verdict (env : ValidateEnv) (entry : validationEntry)
    (start endRec : PosInSequencer) (btr : List Nat)
    (h1 : env.initialized = true) (h2 : entry.Pos = endRec.Pos)
    (h3 : env.prepOk = true) (sb : Bytes) (h4 : env.seqBatch = some sb)
    (h5 : entry.HasDelayedMsg = false ∨ ∃ db, env.delayedMsg = some db)
    (h6 : runLoop env.stepResults env.endGS = RunOutcome.halted env.endGS) :
    (validateModel env entry start endRec btr).resultValid =
      some (resultValidSpec env.endGS endRec entry) := by
  rw [validateModel_reaches_run env entry start endRec btr h1 h2 h3 sb h4 h5]
  unfold validateTail
  rw [h6, ← computeResultValid_eq_spec]
  by_cases hrv : computeResultValid env.endGS endRec entry = false <;> simp [hrv]

theorem c1_validity_verdict_witness :
    c1Env.initialized = true ∧ cwEntry.Pos = cwRec.Pos ∧ c1Env.prepOk = true ∧
    c1Env.seqBatch = some [1] ∧
    (cwEntry.HasDelayedMsg = false ∨ ∃ db, c1Env.delayedMsg = some db) ∧
    runLoop c1Env.stepResults c1Env.endGS = RunOutcome.halted c1Env.endGS ∧
    (validateModel c1Env cwEntry cwRec cwRec []).resultValid =
      some (resultValidSpec c1Env.endGS cwRec cwEntry) :=
  ⟨rfl, rfl, rfl, rfl, Or.inl rfl, rfl,
    c1_validity_verdict c1Env cwEntry cwRec cwRec [] rfl rfl rfl [1] rfl
      (Or.inl rfl) rfl⟩

/-- C2: when the machine's end state disagrees with the block's claimed
post-state, the task first writes the reproduction artifact (a write failure
is only logged), then logs the structured mismatch and aborts the process
with the panic "validation failed. quitting.."; none of the success-path
actions (marking the entry valid, releasing preimages, decrementing the
running counter) happen. -/
theorem c2_mismatch_writes_artifact_then_aborts (env : ValidateEnv)
    (entry : validationEntry) (start endRec : PosInSequencer) (btr : List Nat)
    (h1 : env.initialized = true) (h2 : entry.Pos = endRec.Pos)
    (h3 : env.prepOk = true) (sb : Bytes) (h4 : env.seqBatch = some sb)
    (h5 : entry.HasDelayedMsg = false ∨ ∃ db, env.delayedMsg = some db)
    (h6 : runLoop env.stepResults env.endGS = RunOutcome.halted env.endGS)
    (h7 : computeResultValid env.endGS endRec entry = false) :
    (validateModel env entry start endRec btr).result =
      VResult.panicked "validation failed. quitting.." ∧
    (∃ p m, (validateModel env entry start endRec btr).actions =
      p ++ [VAction.writeArtifact] ++ m ++ [VAction.logMismatch, VAction.freePacked]) ∧
    VAction.setValid ∉ (validateModel env entry start endRec btr).actions ∧
    VAction.removeFromCache ∉ (validateModel env entry start endRec btr).actions ∧
    VAction.decRunning ∉ (validateModel env entry start endRec btr).actions ∧
    (validateModel env entry start endRec btr).entryValid = entry.Valid := by
  rw [validateModel_reaches_run env entry start endRec btr h1 h2 h3 sb h4 h5,
    validateTail_mismatch env entry endRec btr _ h6 h7]
  refine ⟨rfl,
    ⟨validatePre entry.HasDelayedMsg,
      (if env.writeErr then [VAction.logWriteFail] else []), by simp⟩,
    ?_, ?_, ?_, rfl⟩ <;>
  · cases hD : entry.HasDelayedMsg <;> cases hw : env.writeErr <;>
      simp [validatePre, validateSetup]

theorem c2_mismatch_writes_artifact_then_aborts_witness :
    c2Env.initialized = true ∧ cwEntry.Pos = cwRec.Pos ∧ c2Env.prepOk = true ∧
    c2Env.seqBatch = some [1] ∧
    (cwEntry.HasDelayedMsg = false ∨ ∃ db, c2Env.delayedMsg = some db) ∧
    runLoop c2Env.stepResults c2Env.endGS = RunOutcome.halted c2Env.endGS ∧
    computeResultValid c2Env.endGS cwRec cwEntry = false ∧
    ((validateModel c2Env cwEntry cwRec cwRec []).result =
      VResult.panicked "validation failed. quitting.." ∧
    (∃ p m, (validateModel c2Env cwEntry cwRec cwRec []).actions =
      p ++ [VAction.writeArtifact] ++ m ++ [VAction.logMismatch, VAction.freePacked]) ∧
    VAction.setValid ∉ (validateModel c2Env cwEntry cwRec cwRec []).actions ∧
    VAction.removeFromCache ∉ (validateModel c2Env cwEntry cwRec cwRec []).actions ∧
    VAction.decRunning ∉ (validateModel c2Env cwEntry cwRec cwRec []).actions ∧
    (validateModel c2Env cwEntry cwRec cwRec []).entryValid = cwEntry.Valid) :=
  ⟨rfl, rfl, rfl, rfl, Or.inl rfl, rfl, by decide,
    c2_mismatch_writes_artifact_then_aborts c2Env cwEntry cwRec cwRec [] rfl rfl rfl [1]
      rfl (Or.inl rfl) rfl (by decide)⟩

/-- C8 fails as stated: at a concrete cancelled run the task returns early
but `atomicValidationsRunning` is not decremented, the preimage refcounts are
not released, and the delayed-message buffers are not destroyed, contradicting
the claimed resource release. -/
theorem c8_counterexample :
    (validateModel c8Env cwEntry cwRec cwRec []).result = VResult.earlyReturn ∧
    VAction.decRunning ∉ (validateModel c8Env cwEntry cwRec cwRec []).actions ∧
    VAction.removeFromCache ∉ (validateModel c8Env cwEntry cwRec cwRec []).actions ∧
    VAction.destroyBuffers ∉ (validateModel c8Env cwEntry cwRec cwRec []).actions ∧
    (validateModel c8Env cwEntry cwRec cwRec []).runningDelta = 0 := by
  decide

/-- C8 amended: when the machine step loop is interrupted by cancellation or
deadline, the task returns cleanly and records no progress — the entry's
`Valid` flag stays false, so the Progress Tracker does not advance past it —
and the deferred free of the packed preimage-descriptor array runs; but the
preimage refcounts are NOT released, the delayed-message buffers are NOT
destroyed, and `atomicValidationsRunning` is NOT decremented (they leak). -/
theorem c8_amended_cancellation_no_progress_but_leaks (env : ValidateEnv)
    (entry : validationEntry) (start endRec : PosInSequencer) (btr : List Nat)
    (h1 : env.initialized = true) (h2 : entry.Pos = endRec.Pos)
    (h3 : env.prepOk = true) (sb : Bytes) (h4 : env.seqBatch = some sb)
    (h5 : entry.HasDelayedMsg = false ∨ ∃ db, env.delayedMsg = some db)
    (er : StepErr)
    (h6 : runLoop env.stepResults env.endGS = RunOutcome.interrupted er)
    (h7 : entry.Valid = false) :
    (validateModel env entry start endRec btr).result = VResult.earlyReturn ∧
    (validateModel env entry start endRec btr).actions =
      validatePre entry.HasDelayedMsg ++ [VAction.freePacked] ∧
    VAction.freePacked ∈ (validateModel env entry start endRec btr).actions ∧
    VAction.decRunning ∉ (validateModel env entry start endRec btr).actions ∧
    VAction.removeFromCache ∉ (validateModel env entry start endRec btr).actions ∧
    VAction.destroyBuffers ∉ (validateModel env entry start endRec btr).actions ∧
    VAction.setValid ∉ (validateModel env entry start endRec btr).actions ∧
    (validateModel env entry start endRec btr).entryValid = false ∧
    (validateModel env entry start endRec btr).runningDelta = 0 ∧
    (∀ fuel pst e', List.lookup pst.posNext pst.entries = some e' →
      e'.Valid = false → progressRun fuel pst = (pst, [])) := by
  rw [validateModel_reaches_run env entry start endRec btr h1 h2 h3 sb h4 h5,
    validateTail_interrupted env entry endRec btr _ er h6]
  refine ⟨rfl, rfl, ?_, ?_, ?_, ?_, ?_, h7, rfl,
    fun fuel pst e' hl hv => progressRun_stuck fuel pst e' hl hv⟩ <;>
  · cases hD : entry.HasDelayedMsg <;> simp [validatePre, validateSetup]

theorem c8_amended_cancellation_witness :
    c8Env.initialized = true ∧ cwEntry.Pos = cwRec.Pos ∧ c8Env.prepOk = true ∧
    c8Env.seqBatch = some [1] ∧
    (cwEntry.HasDelayedMsg = false ∨ ∃ db, c8Env.delayedMsg = some db) ∧
    runLoop c8Env.stepResults c8Env.endGS = RunOutcome.interrupted StepErr.canceled ∧
    cwEntry.Valid = false ∧
    ((validateModel c8Env cwEntry cwRec cwRec []).result = VResult.earlyReturn ∧
    (validateModel c8Env cwEntry cwRec cwRec []).actions =
      validatePre cwEntry.HasDelayedMsg ++ [VAction.freePacked] ∧
    VAction.freePacked ∈ (validateModel c8Env cwEntry cwRec cwRec []).actions ∧
    VAction.decRunning ∉ (validateModel c8Env cwEntry cwRec cwRec []).actions ∧
    VAction.removeFromCache ∉ (validateModel c8Env cwEntry cwRec cwRec []).actions ∧
    VAction.destroyBuffers ∉ (validateModel c8Env cwEntry cwRec cwRec []).actions ∧
    VAction.setValid ∉ (validateModel c8Env cwEntry cwRec cwRec []).actions ∧
    (validateModel c8Env cwEntry cwRec cwRec []).entryValid = false ∧
    (validateModel c8Env cwEntry cwRec cwRec []).runningDelta = 0 ∧
    (∀ fuel pst e', List.lookup pst.posNext pst.entries = some e' →
      e'.Valid = false → progressRun fuel pst = (pst, []))) :=
  ⟨rfl, rfl, rfl, rfl, Or.inl rfl, rfl, rfl,
    c8_amended_cancellation_no_progress_but_leaks c8Env cwEntry cwRec cwRec [] rfl rfl
      rfl [1] rfl (Or.inl rfl) StepErr.canceled rfl rfl⟩

theorem sendLoopF_spec (entries : List (Nat × validationEntry)) (limit : Nat)
    (ht : ∀ p e, List.lookup p entries = some e → e.Pos = p) :
    ∀ fuel q pns run, ∃ k,
      ((sendLoopF entries limit fuel q pns run).1.map fun d => d.2.Pos) =
        List.range' pns k ∧
      (sendLoopF entries limit fuel q pns run).2.1 = pns + k ∧
      (sendLoopF entries limit fuel q pns run).2.2 = run + k ∧
      (k ≠ 0 → run < limit ∧ run + k ≤ limit) := by
  intro fuel
  induction fuel with
  | zero =>
    intro q pns run
    exact ⟨0, rfl, rfl, rfl, fun hc => absurd rfl hc⟩
  | succ f ih =>
    intro q pns run
    by_cases hrl : run ≥ limit
    · have hstop : sendLoopF entries limit (f + 1) q pns run = ([], pns, run) := by
        unfold sendLoopF
        rw [if_pos hrl]
      exact ⟨0, by rw [hstop]; rfl, by rw [hstop]; rfl, by rw [hstop]; rfl, fun hc => absurd rfl hc⟩
    · cases q with
      | nil =>
        have hstop : sendLoopF entries limit (f + 1) [] pns run = ([], pns, run) := by
          unfold sendLoopF
          rw [if_neg hrl]
        exact ⟨0, by rw [hstop]; rfl, by rw [hstop]; rfl, by rw [hstop]; rfl, fun hc => absurd rfl hc⟩
      | cons h t =>
        by_cases hh : h.Pos = pns
        case neg =>
          have hstop : sendLoopF entries limit (f + 1) (h :: t) pns run = ([], pns, run) := by
            unfold sendLoopF
            rw [if_neg hrl]
            dsimp only
            rw [if_pos hh]
          exact ⟨0, by rw [hstop]; rfl, by rw [hstop]; rfl, by rw [hstop]; rfl, fun hc => absurd rfl hc⟩
        case pos =>
          cases hlp : List.lookup pns entries with
          | none =>
            have hstop : sendLoopF entries limit (f + 1) (h :: t) pns run = ([], pns, run) := by
              unfold sendLoopF
              rw [if_neg hrl]
              dsimp only
              rw [if_neg (not_not_intro hh), hlp]
            exact ⟨0, by rw [hstop]; rfl, by rw [hstop]; rfl, by rw [hstop]; rfl, fun hc => absurd rfl hc⟩
          | some e =>
            cases hg : (h :: t).get? (StupidSearchPos (h :: t) e.Pos) with
            | none =>
              have hstop : sendLoopF entries limit (f + 1) (h :: t) pns run = ([], pns, run) := by
                unfold sendLoopF
                rw [if_neg hrl]
                dsimp only
                rw [if_neg (not_not_intro hh), hlp]
                dsimp only
                rw [hg]
              exact ⟨0, by rw [hstop]; rfl, by rw [hstop]; rfl, by rw [hstop]; rfl, fun hc => absurd rfl hc⟩
            | some endRec =>
              by_cases hep : endRec.Pos = e.Pos
              case neg =>
                have hstop : sendLoopF entries limit (f + 1) (h :: t) pns run = ([], pns, run) := by
                  unfold sendLoopF
                  rw [if_neg hrl]
                  dsimp only
                  rw [if_neg (not_not_intro hh), hlp]
                  dsimp only
                  rw [hg]
                  dsimp only
                  rw [if_pos hep]
                exact ⟨0, by rw [hstop]; rfl, by rw [hstop]; rfl, by rw [hstop]; rfl, fun hc => absurd rfl hc⟩
              case pos =>
                have hePos : e.Pos = pns := ht pns e hlp
                obtain ⟨k, hk1, hk2, hk3, hk4⟩ :=
                  ih ((h :: t).drop (StupidSearchPos (h :: t) e.Pos + 1)) (e.Pos + 1) (run + 1)
                have hred : sendLoopF entries limit (f + 1) (h :: t) pns run =
                    ((h, endRec) :: (sendLoopF entries limit f
                        ((h :: t).drop (StupidSearchPos (h :: t) e.Pos + 1))
                        (e.Pos + 1) (run + 1)).1,
                      (sendLoopF entries limit f
                        ((h :: t).drop (StupidSearchPos (h :: t) e.Pos + 1))
                        (e.Pos + 1) (run + 1)).2.1,
                      (sendLoopF entries limit f
                        ((h :: t).drop (StupidSearchPos (h :: t) e.Pos + 1))
                        (e.Pos + 1) (run + 1)).2.2) := by
                  simp only [sendLoopF]
                  rw [if_neg hrl]
                  try dsimp only
                  rw [if_neg (not_not_intro hh), hlp]
                  try dsimp only
                  rw [hg]
                  try dsimp only
                  rw [if_neg (not_not_intro hep)]
                refine ⟨k + 1, ?_, ?_, ?_, ?_⟩
                · rw [hred]
                  simp only [List.map_cons]
                  rw [hk1, hep, hePos]
                  simp [List.range']
                · rw [hred]
                  have : (sendLoopF entries limit f
                      ((h :: t).drop (StupidSearchPos (h :: t) e.Pos + 1))
                      (e.Pos + 1) (run + 1)).2.1 = e.Pos + 1 + k := hk2
                  rw [hePos] at this
                  simp only []
                  omega
                · rw [hred]
                  have : (sendLoopF entries limit f
                      ((h :: t).drop (StupidSearchPos (h :: t) e.Pos + 1))
                      (e.Pos + 1) (run + 1)).2.2 = run + 1 + k := hk3
                  simp only []
                  omega
                · intro _
                  have hrun : run < limit := by omega
                  refine ⟨hrun, ?_⟩
                  by_cases hk0 : k = 0
                  · omega
                  · have := (hk4 hk0).2
                    omega

/-- C7: dispatch is strictly in `pos` order.  If every table entry's `Pos`
equals its key (which `prepareBlock` guarantees, storing each entry under its
own position), then a `sendValidations` run dispatches end positions that are
exactly the consecutive integers starting at `posNextSend`, `posNextSend`
never decreases (it ends at `posNextSend + k`), the running counter grows by
one per dispatch and never passes `concurrentRunsLimit`, any dispatch at all
requires the counter to start below the limit, and the dispatched positions
are strictly increasing. -/
theorem c7_dispatch_in_pos_order (entries : List (Nat × validationEntry))
    (limit : Nat) (posToValidate : List PosInSequencer) (posNextSend running : Nat)
    (ht : ∀ p e, List.lookup p entries = some e → e.Pos = p) :
    ∃ k,
      ((sendValidationsModel entries limit posToValidate posNextSend running).1.map
        fun d => d.2.Pos) = List.range' posNextSend k ∧
      (sendValidationsModel entries limit posToValidate posNextSend running).2.1 =
        posNextSend + k ∧
      (sendValidationsModel entries limit posToValidate posNextSend running).2.2 =
        running + k ∧
      (k ≠ 0 → running < limit ∧ running + k ≤ limit) ∧
      posNextSend ≤
        (sendValidationsModel entries limit posToValidate posNextSend running).2.1 ∧
      List.Pairwise (· < ·)
        ((sendValidationsModel entries limit posToValidate posNextSend running).1.map
          fun d => d.2.Pos) := by
  obtain ⟨k, h1, h2, h3, h4⟩ := sendLoopF_spec entries limit ht
    (((sortByPos posToValidate).drop
      (StupidSearchPos (sortByPos posToValidate) posNextSend)).length + 1)
    ((sortByPos posToValidate).drop
      (StupidSearchPos (sortByPos posToValidate) posNextSend))
    posNextSend running
  refine ⟨k, h1, h2, h3, h4, ?_, ?_⟩
  · rw [show (sendValidationsModel entries limit posToValidate posNextSend running).2.1 =
        posNextSend + k from h2]
    omega
  · rw [show ((sendValidationsModel entries limit posToValidate posNextSend running).1.map
        fun d => d.2.Pos) = List.range' posNextSend k from h1]
    exact List.pairwise_lt_range' posNextSend k

theorem c7_dispatch_in_pos_order_witness :
    (∀ p e, List.lookup p c7Entries = some e → e.Pos = p) ∧
    (∃ k,
      ((sendValidationsModel c7Entries 1 [cwRec] 0 0).1.map
        fun d => d.2.Pos) = List.range' 0 k ∧
      (sendValidationsModel c7Entries 1 [cwRec] 0 0).2.1 = 0 + k ∧
      (sendValidationsModel c7Entries 1 [cwRec] 0 0).2.2 = 0 + k ∧
      (k ≠ 0 → 0 < 1 ∧ 0 + k ≤ 1) ∧
      0 ≤ (sendValidationsModel c7Entries 1 [cwRec] 0 0).2.1 ∧
      List.Pairwise (· < ·)
        ((sendValidationsModel c7Entries 1 [cwRec] 0 0).1.map fun d => d.2.Pos)) := by
  have ht : ∀ p e, List.lookup p c7Entries = some e → e.Pos = p := by
    intro p e hl
    by_cases hp : p = 0
    · subst hp
      simp [c7Entries, List.lookup] at hl
      rw [← hl]
      rfl
    · have hb : (p == 0) = false := by simp [hp]
      simp [c7Entries, List.lookup, hb] at hl
  exact ⟨ht, c7_dispatch_in_pos_order c7Entries 1 [cwRec] 0 0 ht⟩

theorem wip_ne (s : String) : s ++ ".wip" ≠ s := by
  intro h
  have h2 := congrArg String.length h
  rw [String.length_append] at h2
  have h3 : (".wip" : String).length = 4 := rfl
  rw [h3] at h2
  omega

theorem recomputePath_spec (env : CacheEnv) (file : String) (acts : List CAct) :
    ((recomputePath env file acts).2 = none ↔
      (env.stepErr = false ∧ env.serializeErr = false ∧ env.renameErr = false)) ∧
    (env.stepErr = false → env.serializeErr = false → env.renameErr = false →
      (recomputePath env file acts).1 = acts ++
        [CAct.stepUntilHostIo, CAct.serializeTo (file ++ ".wip"),
          CAct.renameFile (file ++ ".wip") file]) ∧
    (∀ p, CAct.serializeTo p ∈ (recomputePath env file acts).1 →
      CAct.serializeTo p ∈ acts ∨ p = file ++ ".wip") := by
  cases hstep : env.stepErr <;> cases hser : env.serializeErr <;>
    cases hren : env.renameErr <;>
      refine ⟨by simp [recomputePath, hstep, hser, hren], ?_, ?_⟩ <;>
        (simp [recomputePath, hstep, hser, hren]
         try exact fun p hp => Or.inl hp)

theorem serializeTo_not_in_scanFiles (expected : String) (threshold : Nat)
    (removeErr : Bool) (p : String) :
    ∀ files, CAct.serializeTo p ∉ (scanFiles expected threshold removeErr files).1 := by
  intro files
  induction files with
  | nil => simp [scanFiles]
  | cons f rest ih =>
    by_cases h1 : f.name = expected
    · simpa [scanFiles, h1] using ih
    · by_cases h2 : f.mtime < threshold
      · by_cases hre : removeErr = true
        · simp [scanFiles, h1, h2, hre]
        · have hre' : removeErr = false := by simpa using hre
          simpa [scanFiles, h1, h2, hre'] using ih
      · simpa [scanFiles, h1, h2] using ih

theorem c9_core (env : CacheEnv) (acts : List CAct)
    (hacts : ∀ p : String, CAct.serializeTo p ∉ acts)
    (hcm : cacheModel env =
      recomputePath env (env.cacheDir ++ "/" ++ (env.hashStr ++ ".bin")) acts) :
    ((cacheModel env).2 = none ↔
      (env.stepErr = false ∧ env.serializeErr = false ∧ env.renameErr = false)) ∧
    (env.stepErr = false → env.serializeErr = false → env.renameErr = false →
      ∃ pre, (cacheModel env).1 = pre ++
        [CAct.stepUntilHostIo,
          CAct.serializeTo (env.cacheDir ++ "/" ++ (env.hashStr ++ ".bin") ++ ".wip"),
          CAct.renameFile (env.cacheDir ++ "/" ++ (env.hashStr ++ ".bin") ++ ".wip")
            (env.cacheDir ++ "/" ++ (env.hashStr ++ ".bin"))]) ∧
    (∀ p, CAct.serializeTo p ∈ (cacheModel env).1 →
      p ≠ env.cacheDir ++ "/" ++ (env.hashStr ++ ".bin")) ∧
    startModel env = (cacheModel env).2 := by
  obtain ⟨r1, r2, r3⟩ :=
    recomputePath_spec env (env.cacheDir ++ "/" ++ (env.hashStr ++ ".bin")) acts
  refine ⟨by rw [hcm]; exact r1, ?_, ?_, rfl⟩
  · intro h1 h2 h3
    exact ⟨acts, by rw [hcm, r2 h1 h2 h3]⟩
  · intro p hp
    rw [hcm] at hp
    rcases r3 p hp with hin | heq
    · exact absurd hin (hacts p)
    · rw [heq]
      exact wip_ne _

/-- C9: on a base-machine cache miss, or when `DeserializeAndReplaceState`
fails (non-fatal), startup falls through to recomputation: it runs
`StepUntilHostIo`, serializes to the sibling `<hash>.bin.wip` file and renames
it over the canonical path; `Start` then returns an error exactly when one of
those recomputation steps errors, and no serialization ever targets the
canonical `<hash>.bin` name (only the atomic rename does). -/
theorem c9_cache_recomputation (env : CacheEnv)
    (hm : env.mkdirErr = false) (hr : env.readDirErr = false)
    (hsc : (scanFiles (env.hashStr ++ ".bin") (env.now - 24) env.removeErr
      env.dirFiles).2.2 = false)
    (hmiss : (scanFiles (env.hashStr ++ ".bin") (env.now - 24) env.removeErr
        env.dirFiles).2.1 = false ∨
      env.chtimesRes = ChtimesRes.errNotExist ∨
      (env.chtimesRes = ChtimesRes.ok ∧ env.deserializeOk = false)) :
    ((cacheModel env).2 = none ↔
      (env.stepErr = false ∧ env.serializeErr = false ∧ env.renameErr = false)) ∧
    (env.stepErr = false → env.serializeErr = false → env.renameErr = false →
      ∃ pre, (cacheModel env).1 = pre ++
        [CAct.stepUntilHostIo,
          CAct.serializeTo (env.cacheDir ++ "/" ++ (env.hashStr ++ ".bin") ++ ".wip"),
          CAct.renameFile (env.cacheDir ++ "/" ++ (env.hashStr ++ ".bin") ++ ".wip")
            (env.cacheDir ++ "/" ++ (env.hashStr ++ ".bin"))]) ∧
    (∀ p, CAct.serializeTo p ∈ (cacheModel env).1 →
      p ≠ env.cacheDir ++ "/" ++ (env.hashStr ++ ".bin")) ∧
    startModel env = (cacheModel env).2 := by
  by_cases hfound : (scanFiles (env.hashStr ++ ".bin") (env.now - 24) env.removeErr
      env.dirFiles).2.1 = true
  · rcases hmiss with hmiss | hct | ⟨hok, hdes⟩
    · rw [hmiss] at hfound; cases hfound
    · refine c9_core env
        (CAct.mkdir :: (scanFiles (env.hashStr ++ ".bin") (env.now - 24) env.removeErr
          env.dirFiles).1 ++ [CAct.touch]) ?_ ?_
      · intro p hp
        simp only [List.cons_append, List.mem_cons, List.mem_append,
          List.mem_singleton] at hp
        rcases hp with hp | hp | hp | hp
        · cases hp
        · exact serializeTo_not_in_scanFiles _ _ _ p _ hp
        · cases hp
        · cases hp
      · simp [cacheModel, hm, hr, hsc, hfound, hct]
    · refine c9_core env
        (CAct.mkdir :: (scanFiles (env.hashStr ++ ".bin") (env.now - 24) env.removeErr
          env.dirFiles).1 ++ [CAct.touch, CAct.deserialize]) ?_ ?_
      · intro p hp
        simp only [List.cons_append, List.mem_cons, List.mem_append,
          List.mem_singleton] at hp
        rcases hp with hp | hp | hp | hp | hp
        · cases hp
        · exact serializeTo_not_in_scanFiles _ _ _ p _ hp
        · cases hp
        · cases hp
        · cases hp
      · simp [cacheModel, hm, hr, hsc, hfound, hok, hdes]
  · have hf' : (scanFiles (env.hashStr ++ ".bin") (env.now - 24) env.removeErr
        env.dirFiles).2.1 = false := by
      simpa using hfound
    refine c9_core env
      (CAct.mkdir :: (scanFiles (env.hashStr ++ ".bin") (env.now - 24) env.removeErr
        env.dirFiles).1) ?_ ?_
    · intro p hp
      simp only [List.mem_cons] at hp
      rcases hp with hp | hp
      · cases hp
      · exact serializeTo_not_in_scanFiles _ _ _ p _ hp
    · simp [cacheModel, hm, hr, hsc, hf']

theorem c9_cache_recomputation_witness :
    c9Env.mkdirErr = false ∧ c9Env.readDirErr = false ∧
    (scanFiles (c9Env.hashStr ++ ".bin") (c9Env.now - 24) c9Env.removeErr
      c9Env.dirFiles).2.2 = false ∧
    ((scanFiles (c9Env.hashStr ++ ".bin") (c9Env.now - 24) c9Env.removeErr
        c9Env.dirFiles).2.1 = false ∨
      c9Env.chtimesRes = ChtimesRes.errNotExist ∨
      (c9Env.chtimesRes = ChtimesRes.ok ∧ c9Env.deserializeOk = false)) ∧
    (((cacheModel c9Env).2 = none ↔
      (c9Env.stepErr = false ∧ c9Env.serializeErr = false ∧ c9Env.renameErr = false)) ∧
    (c9Env.stepErr = false → c9Env.serializeErr = false → c9Env.renameErr = false →
      ∃ pre, (cacheModel c9Env).1 = pre ++
        [CAct.stepUntilHostIo,
          CAct.serializeTo (c9Env.cacheDir ++ "/" ++ (c9Env.hashStr ++ ".bin") ++ ".wip"),
          CAct.renameFile (c9Env.cacheDir ++ "/" ++ (c9Env.hashStr ++ ".bin") ++ ".wip")
            (c9Env.cacheDir ++ "/" ++ (c9Env.hashStr ++ ".bin"))]) ∧
    (∀ p, CAct.serializeTo p ∈ (cacheModel c9Env).1 →
      p ≠ c9Env.cacheDir ++ "/" ++ (c9Env.hashStr ++ ".bin")) ∧
    startModel c9Env = (cacheModel c9Env).2) :=
  ⟨rfl, rfl, rfl, Or.inl rfl,
    c9_cache_recomputation c9Env rfl rfl rfl (Or.inl rfl)⟩

end NitroVal
